import Mathlib

/-!
Verification development for the Rusty-Ray-Tracer rendering core.

The rendering core (`src/scene/mod.rs`, `src/ray/mod.rs`, `src/camera/mod.rs`)
is embedded shallowly: `f64` arithmetic is idealised as real-number arithmetic,
Rust `Option` becomes Lean `Option`, the mutable pixel buffer becomes explicit
state passing, and the trait-object collaborators that are not part of the
sources (`Shape`, `Light`, `Color`, `Vector3`, `PixelBuffer`, `ViewWindow`,
`Configuration`) are modelled from the specification's description of their
interfaces.
-/

set_option maxHeartbeats 1000000

noncomputable section

/-- Modelled from the spec: the external `cgmath::Vector3<f64>` primitive —
an (x, y, z) float triple; `f64` components are idealised as real numbers. -/
@[ext]
structure Vec3 where
  x : ℝ
  y : ℝ
  z : ℝ

instance : Add Vec3 := ⟨fun a b => ⟨a.x + b.x, a.y + b.y, a.z + b.z⟩⟩

instance : Sub Vec3 := ⟨fun a b => ⟨a.x - b.x, a.y - b.y, a.z - b.z⟩⟩

instance : SMul ℝ Vec3 := ⟨fun a v => ⟨a * v.x, a * v.y, a * v.z⟩⟩

/-- `Vector3 * f64` (cgmath scales component-wise on the right as well). -/
instance : HMul Vec3 ℝ Vec3 := ⟨fun v a => ⟨v.x * a, v.y * a, v.z * a⟩⟩

/-- Modelled from the spec: the cgmath dot product. -/
def Vec3.dot (a b : Vec3) : ℝ := a.x * b.x + a.y * b.y + a.z * b.z

/-- Modelled from the spec: the cgmath magnitude, `sqrt (v ⋅ v)`. -/
def Vec3.magnitude (v : Vec3) : ℝ := Real.sqrt (v.dot v)

/-- Modelled from the spec: cgmath `normalize`, `v * (1 / magnitude v)`.
Undefined (NaN) on the zero vector in the source; the real-number model
yields the zero vector there, and every claim that touches `normalize`
carries a non-degeneracy hypothesis. -/
def Vec3.normalize (v : Vec3) : Vec3 := v.magnitude⁻¹ • v

@[simp] lemma Vec3.add_x (a b : Vec3) : (a + b).x = a.x + b.x := rfl

@[simp] lemma Vec3.add_y (a b : Vec3) : (a + b).y = a.y + b.y := rfl

@[simp] lemma Vec3.add_z (a b : Vec3) : (a + b).z = a.z + b.z := rfl

@[simp] lemma Vec3.sub_x (a b : Vec3) : (a - b).x = a.x - b.x := rfl

@[simp] lemma Vec3.sub_y (a b : Vec3) : (a - b).y = a.y - b.y := rfl

@[simp] lemma Vec3.sub_z (a b : Vec3) : (a - b).z = a.z - b.z := rfl

@[simp] lemma Vec3.smul_x (a : ℝ) (v : Vec3) : (a • v).x = a * v.x := rfl

@[simp] lemma Vec3.smul_y (a : ℝ) (v : Vec3) : (a • v).y = a * v.y := rfl

@[simp] lemma Vec3.smul_z (a : ℝ) (v : Vec3) : (a • v).z = a * v.z := rfl

@[simp] lemma Vec3.mul_x (v : Vec3) (a : ℝ) : (v * a).x = v.x * a := rfl

@[simp] lemma Vec3.mul_y (v : Vec3) (a : ℝ) : (v * a).y = v.y * a := rfl

@[simp] lemma Vec3.mul_z (v : Vec3) (a : ℝ) : (v * a).z = v.z * a := rfl

/-- Modelled from the spec: the external RGB `Color` type with scaling and
addition; components idealised as real numbers. -/
structure Color where
  r : ℝ
  g : ℝ
  b : ℝ

def Color.new (r g b : ℝ) : Color := ⟨r, g, b⟩

instance : Add Color := ⟨fun a b => ⟨a.r + b.r, a.g + b.g, a.b + b.b⟩⟩

/-- `Color * f64` scaling. -/
instance : HMul Color ℝ Color := ⟨fun c a => ⟨c.r * a, c.g * a, c.b * a⟩⟩

/- ===================== src/ray/mod.rs ===================== -/

/-- `Ray` from `src/ray/mod.rs`: an origin and a direction vector. -/
structure Ray where
  origin : Vec3
  direction : Vec3

/-- `Ray::new` from `src/ray/mod.rs`: stores both arguments verbatim
(despite its doc comment, it performs no normalization and no subtraction). -/
def Ray.new (origin direction : Vec3) : Ray := ⟨origin, direction⟩

/-- `Ray::from_points` from `src/ray/mod.rs`. -/
def Ray.from_points (origin destination : Vec3) : Ray :=
  ⟨origin, (destination - origin).normalize⟩

/-- `Ray::distance` from `src/ray/mod.rs`. -/
def Ray.distance (r : Ray) (other : Vec3) : ℝ := (other - r.origin).magnitude

/-- `Ray::reflection` from `src/ray/mod.rs`:
`self.direction - 2 * normal * self.direction.dot(normal)`. -/
def Ray.reflection (r : Ray) (normal : Vec3) : Vec3 :=
  r.direction - (2 * r.direction.dot normal) • normal

/-- `Ray::reflection_ray` from `src/ray/mod.rs`. -/
def Ray.reflection_ray (r : Ray) (intersection normal : Vec3) : Ray :=
  ⟨intersection, r.direction - (2 * r.direction.dot normal) • normal⟩

/- ===================== src/camera/mod.rs ===================== -/

/-- `Camera` from `src/camera/mod.rs`. -/
structure Camera where
  origin : Vec3
  target : Vec3

def Camera.new (origin target : Vec3) : Camera := ⟨origin, target⟩

/-- `Camera::orientation_vector` from `src/camera/mod.rs`. -/
def Camera.orientation_vector (c : Camera) : Vec3 :=
  (c.target - c.origin).normalize

/- ============== external collaborators of src/scene/mod.rs ============== -/

/-- Modelled from the spec: the external `Light` capability — it exposes a
world-space origin point and nothing else. -/
structure Light where
  origin : Vec3

/-- Modelled from the spec: the external `Shape` capability set —
`intersect(ray) -> Option<Point>`, `normal(point, view_hint) -> Vector3`,
`color() -> Color`, and an equality comparison ("value or identity") used for
self-exclusion; equality is modelled by an identifier, since the concrete
geometry lives outside the sources. -/
structure Shape where
  id : ℕ
  intersect : Ray → Option Vec3
  normal : Vec3 → Vec3 → Vec3
  color : Color

/-- Modelled from the spec: `Shape` equality (`*shape == this_shape`). -/
def Shape.beq (a b : Shape) : Bool := a.id == b.id

/-- Modelled from the spec: the external `PixelBuffer` — `set_pixel(x, y, color)`
writes one cell; the buffer is modelled as a total map from coordinates to
colors (the initial background contents are out of scope). -/
@[ext]
structure PixelBuffer where
  data : ℕ → ℕ → Color

/-- Modelled from the spec: `PixelBuffer::new(width, height)`; the initial
contents are owned by the external collaborator and immaterial to the claims,
modelled as all-zero. -/
def PixelBuffer.new (_width _height : ℕ) : PixelBuffer :=
  ⟨fun _ _ => Color.new 0 0 0⟩

/-- Modelled from the spec: `set_pixel` writes exactly the one addressed cell. -/
def PixelBuffer.set_pixel (pb : PixelBuffer) (x y : ℕ) (color : Color) :
    PixelBuffer :=
  ⟨fun i j => if i = x ∧ j = y then color else pb.data i j⟩

/-- Modelled from the spec: the `view_window` module is not under `src/`; it
holds the pixel resolution, the physical viewport width and the plane's
world-space position, and is immutable after construction. -/
structure ViewWindow where
  pixel_width : ℕ
  pixel_height : ℕ
  viewport_width : ℝ
  position : Vec3

/-- Modelled from the spec: `ViewWindow::new(width, height, viewport_width,
position)`. -/
def ViewWindow.new (pixel_width pixel_height : ℕ) (viewport_width : ℝ)
    (position : Vec3) : ViewWindow :=
  ⟨pixel_width, pixel_height, viewport_width, position⟩

/-- Modelled from the spec: `ViewWindow::at(x, y)` (named `at` in the source,
which is a reserved word here) maps a pixel coordinate linearly across the
viewport plane, whose physical height preserves the aspect ratio. The missing
source does not fix the plane basis; world axes are used, and no claim depends
on the formula. -/
def ViewWindow.at_point (vw : ViewWindow) (x y : ℕ) : Vec3 :=
  ⟨vw.position.x - vw.viewport_width / 2 +
      (x : ℝ) * (vw.viewport_width / (vw.pixel_width : ℝ)),
    vw.position.y - vw.viewport_width * (vw.pixel_height : ℝ) / (vw.pixel_width : ℝ) / 2 +
      (y : ℝ) * (vw.viewport_width / (vw.pixel_width : ℝ)),
    vw.position.z⟩

/-- Modelled from the spec: the configuration loader is external; it supplies
the already-parsed lights, the object definitions (each expanded into a list
of shapes by `read_shapes`), the camera, and the scalar parameters consumed by
`Scene::new`. -/
structure Configuration where
  lights : List Light
  objects : List (List Shape)
  camera : Camera
  width : ℕ
  height : ℕ
  viewport_width : ℝ
  viewport_distance : ℝ
  ambient_coefficient : ℝ
  specular_coefficient : ℝ

/- ===================== src/scene/mod.rs ===================== -/

/-- `SceneContents` from `src/scene/mod.rs`. -/
structure SceneContents where
  lights : List Light
  shapes : List Shape

/-- `SceneCharacteristics` from `src/scene/mod.rs`. -/
structure SceneCharacteristics where
  ambient_coefficient : ℝ
  diffuse_coefficient : ℝ
  specular_coefficient : ℝ

/-- `RayHit` from `src/scene/mod.rs`. -/
structure RayHit where
  shape : Shape
  intersection : Vec3
  distance : ℝ

/-- `Scene` from `src/scene/mod.rs`. -/
structure Scene where
  camera : Camera
  scene_contents : SceneContents
  scene_characteristics : SceneCharacteristics
  pixel_buffer : PixelBuffer
  view_window : ViewWindow

/-- `Scene::new` from `src/scene/mod.rs`: lights are collected from the
configuration, shapes are appended object definition by object definition,
`diffuse_coefficient` is derived as `1 - ambient_coefficient`, and the view
window is placed at `camera.origin + normalize(target - origin) * viewport_distance`. -/
def Scene.new (configuration : Configuration) : Scene :=
  let lights : List Light := configuration.lights
  let shapes : List Shape := configuration.objects.foldl (fun acc l => acc ++ l) []
  let camera : Camera := configuration.camera
  let view_window_position : Vec3 := camera.origin +
    (camera.target - camera.origin).normalize * configuration.viewport_distance
  { camera := camera
    scene_contents := { lights := lights, shapes := shapes }
    scene_characteristics :=
      { ambient_coefficient := configuration.ambient_coefficient
        diffuse_coefficient := 1 - configuration.ambient_coefficient
        specular_coefficient := configuration.specular_coefficient }
    pixel_buffer := PixelBuffer.new configuration.width configuration.height
    view_window := ViewWindow.new configuration.width configuration.height
      configuration.viewport_width view_window_position }

/-- The `if let Some(this_shape) = this_object { if *shape == this_shape {
continue } }` test at the head of the `closest_intersection` loop. -/
def excludes (this_object : Option Shape) (shape : Shape) : Bool :=
  match this_object with
  | some this_shape => shape.beq this_shape
  | none => false

/-- The loop of `Scene::closest_intersection` from `src/scene/mod.rs`,
with the two pieces of loop state (`result`, `shortest_distance`) passed
explicitly; `f64::MAX`, the initial `shortest_distance`, is modelled as the
top element of `WithTop ℝ`, an upper bound of every idealised distance. -/
def closest_intersection_aux (ray : Ray) (this_object : Option Shape) :
    List Shape → Option RayHit → WithTop ℝ → Option RayHit
  | [], result, _shortest => result
  | shape :: rest, result, shortest =>
    if excludes this_object shape then
      closest_intersection_aux ray this_object rest result shortest
    else
      match shape.intersect ray with
      | some intersection =>
        let distance : ℝ := (intersection - ray.origin).magnitude
        if shortest > (distance : WithTop ℝ) then
          closest_intersection_aux ray this_object rest
            (some { shape := shape, intersection := intersection, distance := distance })
            (distance : WithTop ℝ)
        else
          closest_intersection_aux ray this_object rest result shortest
      | none => closest_intersection_aux ray this_object rest result shortest

/-- `Scene::closest_intersection` from `src/scene/mod.rs`. -/
def Scene.closest_intersection (s : Scene) (ray : Ray)
    (this_object : Option Shape) : Option RayHit :=
  closest_intersection_aux ray this_object s.scene_contents.shapes none ⊤

/-- The `shortest_distance` loop state determined by the `result` loop state:
`f64::MAX` (here `⊤`) while no hit is recorded, the recorded hit's distance
afterwards. -/
def short_of : Option RayHit → WithTop ℝ
  | none => ⊤
  | some h => (h.distance : WithTop ℝ)

/-- `Scene::shadow` from `src/scene/mod.rs`. -/
def Scene.shadow (s : Scene) (ray_hit : RayHit) (to_light : Ray) : Bool :=
  match s.closest_intersection to_light (some ray_hit.shape) with
  | some _ => true
  | none => false

/-- The shadow-ray construction at the head of the per-light loop in
`Scene::light` (`src/scene/mod.rs`):
`let mut to_light = Ray::new(ray_hit.intersection, light.origin);
to_light.origin += to_light.direction * 0.00001;`. -/
def to_light_ray (intersection : Vec3) (light : Light) : Ray :=
  let to_light : Ray := Ray.new intersection light.origin
  { to_light with origin := to_light.origin + to_light.direction * (0.00001 : ℝ) }

/-- The body of the per-light loop of `Scene::light` from `src/scene/mod.rs`,
acting on the running `result` color. -/
def light_step (s : Scene) (ray : Ray) (ray_hit : RayHit) (result : Color)
    (light : Light) : Color :=
  let to_light : Ray := to_light_ray ray_hit.intersection light
  if s.shadow ray_hit to_light then result
  else
    let normal : Vec3 :=
      ray_hit.shape.normal ray_hit.intersection s.camera.orientation_vector
    let shade : ℝ := to_light.direction.dot normal
    if shade > 0 then
      Color.new 100 100 100 *
          (max 0 (to_light.direction.dot (ray.reflection normal))) ^
            s.scene_characteristics.specular_coefficient +
        ray_hit.shape.color * s.scene_characteristics.diffuse_coefficient * shade +
        ray_hit.shape.color * s.scene_characteristics.ambient_coefficient
    else result

/-- `Scene::light` from `src/scene/mod.rs`: the ambient baseline folded
through the per-light loop. -/
def Scene.light (s : Scene) (ray : Ray) (ray_hit : RayHit) : Color :=
  let shape_color : Color := ray_hit.shape.color
  s.scene_contents.lights.foldl (light_step s ray ray_hit)
    (shape_color * s.scene_characteristics.ambient_coefficient)

/-- The color `Scene::light` assigns when a light passes the shadow test and
`shade > 0`: specular term + diffuse term + ambient term for that light. -/
def light_contribution (s : Scene) (ray : Ray) (ray_hit : RayHit)
    (light : Light) : Color :=
  let to_light : Ray := to_light_ray ray_hit.intersection light
  let normal : Vec3 :=
    ray_hit.shape.normal ray_hit.intersection s.camera.orientation_vector
  let shade : ℝ := to_light.direction.dot normal
  Color.new 100 100 100 *
      (max 0 (to_light.direction.dot (ray.reflection normal))) ^
        s.scene_characteristics.specular_coefficient +
    ray_hit.shape.color * s.scene_characteristics.diffuse_coefficient * shade +
    ray_hit.shape.color * s.scene_characteristics.ambient_coefficient

/-- A light contributes in `Scene::light` when its shadow test fails and its
`shade` is positive. -/
def light_contributes (s : Scene) (ray_hit : RayHit)
    (light : Light) : Prop :=
  s.shadow ray_hit (to_light_ray ray_hit.intersection light) = false ∧
  0 < (to_light_ray ray_hit.intersection light).direction.dot
      (ray_hit.shape.normal ray_hit.intersection s.camera.orientation_vector)

/-- `Scene::trace` from `src/scene/mod.rs`. -/
def Scene.trace (s : Scene) (ray : Ray) : Option Color :=
  match s.closest_intersection ray none with
  | some ray_hit => some (s.light ray ray_hit)
  | none => none

/-- One iteration of the pixel loop of `Scene::draw` from `src/scene/mod.rs`:
build the primary ray for pixel (x, y), trace it, and write the pixel only
when a color resulted. -/
def draw_cell (s : Scene) (x y : ℕ) (pb : PixelBuffer) : PixelBuffer :=
  match s.trace (Ray.new s.camera.origin (s.view_window.at_point x y)) with
  | some color => pb.set_pixel x y color
  | none => pb

/-- The nested pixel loops of `Scene::draw` from `src/scene/mod.rs`
(`x` outer over `pixel_width`, `y` inner over `pixel_height`). -/
def draw_loop (s : Scene) (pb : PixelBuffer) : PixelBuffer :=
  (List.range s.view_window.pixel_width).foldl
    (fun acc x =>
      (List.range s.view_window.pixel_height).foldl
        (fun acc' y => draw_cell s x y acc') acc)
    pb

/-- `Scene::draw` from `src/scene/mod.rs`, minus the final image-file write
(external I/O): every pixel is traced and the pixel buffer updated in place. -/
def Scene.draw (s : Scene) : Scene :=
  { s with pixel_buffer := draw_loop s s.pixel_buffer }

/- ===================== vector algebra helper lemmas ===================== -/

lemma Vec3.dot_self_nonneg (v : Vec3) : 0 ≤ v.dot v := by
  have hx := mul_self_nonneg v.x
  have hy := mul_self_nonneg v.y
  have hz := mul_self_nonneg v.z
  unfold Vec3.dot
  linarith

lemma Vec3.dot_self_pos (v : Vec3) (hv : v ≠ ⟨0, 0, 0⟩) : 0 < v.dot v := by
  rcases lt_or_eq_of_le (Vec3.dot_self_nonneg v) with h | h
  · exact h
  · exfalso
    apply hv
    have h' : v.x * v.x + v.y * v.y + v.z * v.z = 0 := by
      unfold Vec3.dot at h
      linarith
    have hx : v.x = 0 := mul_self_eq_zero.mp <|
      le_antisymm (by linarith [mul_self_nonneg v.y, mul_self_nonneg v.z])
        (mul_self_nonneg v.x)
    have hy : v.y = 0 := mul_self_eq_zero.mp <|
      le_antisymm (by linarith [mul_self_nonneg v.x, mul_self_nonneg v.z])
        (mul_self_nonneg v.y)
    have hz : v.z = 0 := mul_self_eq_zero.mp <|
      le_antisymm (by linarith [mul_self_nonneg v.x, mul_self_nonneg v.y])
        (mul_self_nonneg v.z)
    obtain ⟨a, b, c⟩ := v
    simp only [Vec3.mk.injEq]
    exact ⟨hx, hy, hz⟩

lemma Vec3.magnitude_nonneg (v : Vec3) : 0 ≤ v.magnitude :=
  Real.sqrt_nonneg _

lemma Vec3.magnitude_pos (v : Vec3) (hv : v ≠ ⟨0, 0, 0⟩) : 0 < v.magnitude :=
  Real.sqrt_pos.mpr (Vec3.dot_self_pos v hv)

lemma Vec3.magnitude_smul (k : ℝ) (v : Vec3) :
    (k • v).magnitude = |k| * v.magnitude := by
  unfold Vec3.magnitude
  have hdot : (k • v).dot (k • v) = k ^ 2 * v.dot v := by
    simp only [Vec3.dot, Vec3.smul_x, Vec3.smul_y, Vec3.smul_z]
    ring
  rw [hdot, Real.sqrt_mul (sq_nonneg k), Real.sqrt_sq_eq_abs]

lemma Vec3.magnitude_normalize (v : Vec3) (hv : v ≠ ⟨0, 0, 0⟩) :
    v.normalize.magnitude = 1 := by
  have hm := Vec3.magnitude_pos v hv
  unfold Vec3.normalize
  rw [Vec3.magnitude_smul, abs_of_nonneg (inv_nonneg.mpr hm.le)]
  exact inv_mul_cancel₀ hm.ne'

/- ============ closest-intersection loop invariants (C1, C10) ============ -/

lemma closest_intersection_aux_some_ne_none (ray : Ray) (excl : Option Shape) :
    ∀ (l : List Shape) (h : RayHit) (shortest : WithTop ℝ),
      closest_intersection_aux ray excl l (some h) shortest ≠ none := by
  intro l
  induction l with
  | nil =>
    intro h shortest hc
    rw [closest_intersection_aux] at hc
    exact Option.some_ne_none _ hc
  | cons shape rest ih =>
    intro h shortest hc
    rw [closest_intersection_aux] at hc
    by_cases he : excludes excl shape = true
    · rw [if_pos he] at hc
      exact ih h shortest hc
    · rw [if_neg he] at hc
      cases hi : shape.intersect ray with
      | none =>
        simp only [hi] at hc
        exact ih h shortest hc
      | some p =>
        simp only [hi] at hc
        by_cases hlt : shortest > (((p - ray.origin).magnitude : ℝ) : WithTop ℝ)
        · rw [if_pos hlt] at hc
          exact ih _ _ hc
        · rw [if_neg hlt] at hc
          exact ih h shortest hc

lemma closest_intersection_aux_none_iff (ray : Ray) (excl : Option Shape) :
    ∀ (l : List Shape),
      closest_intersection_aux ray excl l none ⊤ = none ↔
      ∀ sh ∈ l, excludes excl sh = false → sh.intersect ray = none := by
  intro l
  induction l with
  | nil => simp [closest_intersection_aux]
  | cons shape rest ih =>
    rw [closest_intersection_aux]
    cases he : excludes excl shape with
    | true =>
      rw [if_pos rfl, ih, List.forall_mem_cons]
      simp [he]
    | false =>
      rw [if_neg (by simp)]
      cases hi : shape.intersect ray with
      | none =>
        simp only [hi]
        rw [ih, List.forall_mem_cons]
        simp [hi]
      | some p =>
        simp only [hi]
        rw [if_pos (WithTop.coe_lt_top _)]
        rw [List.forall_mem_cons]
        constructor
        · intro hc
          exact absurd hc (closest_intersection_aux_some_ne_none ray excl rest _ _)
        · intro hall
          exact absurd (hall.1 he) (by simp [hi])

lemma closest_intersection_aux_some_spec (ray : Ray) (excl : Option Shape) :
    ∀ (l : List Shape) (result : Option RayHit) (h : RayHit),
      closest_intersection_aux ray excl l result (short_of result) = some h →
      (result = some h ∧
        ∀ sh ∈ l, excludes excl sh = false →
          ∀ p, sh.intersect ray = some p →
            h.distance ≤ (p - ray.origin).magnitude) ∨
      (∃ l₁ sh l₂, l = l₁ ++ sh :: l₂ ∧ excludes excl sh = false ∧
        sh.intersect ray = some h.intersection ∧
        h.shape = sh ∧
        h.distance = (h.intersection - ray.origin).magnitude ∧
        ((h.distance : ℝ) : WithTop ℝ) < short_of result ∧
        (∀ sh' ∈ l₁, excludes excl sh' = false →
          ∀ p, sh'.intersect ray = some p →
            h.distance < (p - ray.origin).magnitude) ∧
        (∀ sh' ∈ l₂, excludes excl sh' = false →
          ∀ p, sh'.intersect ray = some p →
            h.distance ≤ (p - ray.origin).magnitude)) := by
  intro l
  induction l with
  | nil =>
    intro result h hres
    rw [closest_intersection_aux] at hres
    left
    exact ⟨hres, by simp⟩
  | cons shape rest ih =>
    intro result h hres
    rw [closest_intersection_aux] at hres
    by_cases he : excludes excl shape = true
    · rw [if_pos he] at hres
      rcases ih result h hres with ⟨hr, hmin⟩ |
        ⟨l₁, sh, l₂, heq, hex, hint, hsh, hd, hlt, hbefore, hafter⟩
      · left
        refine ⟨hr, ?_⟩
        intro sh hm hex p hp
        rcases List.mem_cons.mp hm with rfl | hm'
        · rw [he] at hex
          cases hex
        · exact hmin sh hm' hex p hp
      · right
        refine ⟨shape :: l₁, sh, l₂, by rw [heq, List.cons_append], hex, hint,
          hsh, hd, hlt, ?_, hafter⟩
        intro sh' hm hex' p hp
        rcases List.mem_cons.mp hm with rfl | hm'
        · rw [he] at hex'
          cases hex'
        · exact hbefore sh' hm' hex' p hp
    · rw [if_neg he] at hres
      have he' : excludes excl shape = false := by
        cases hev : excludes excl shape
        · rfl
        · exact absurd hev he
      cases hi : shape.intersect ray with
      | none =>
        simp only [hi] at hres
        rcases ih result h hres with ⟨hr, hmin⟩ |
          ⟨l₁, sh, l₂, heq, hex, hint, hsh, hd, hlt, hbefore, hafter⟩
        · left
          refine ⟨hr, ?_⟩
          intro sh hm hex p hp
          rcases List.mem_cons.mp hm with rfl | hm'
          · rw [hi] at hp
            cases hp
          · exact hmin sh hm' hex p hp
        · right
          refine ⟨shape :: l₁, sh, l₂, by rw [heq, List.cons_append], hex, hint,
            hsh, hd, hlt, ?_, hafter⟩
          intro sh' hm hex' p hp
          rcases List.mem_cons.mp hm with rfl | hm'
          · rw [hi] at hp
            cases hp
          · exact hbefore sh' hm' hex' p hp
      | some p =>
        simp only [hi] at hres
        by_cases hlt : short_of result >
            (((p - ray.origin).magnitude : ℝ) : WithTop ℝ)
        · rw [if_pos hlt] at hres
          have hres' : closest_intersection_aux ray excl rest
              (some ⟨shape, p, (p - ray.origin).magnitude⟩)
              (short_of (some ⟨shape, p, (p - ray.origin).magnitude⟩)) = some h := hres
          rcases ih _ h hres' with ⟨hr, hmin⟩ |
            ⟨l₁, sh, l₂, heq, hex, hint, hsh, hd, hlt', hbefore, hafter⟩
          · obtain rfl : (⟨shape, p, (p - ray.origin).magnitude⟩ : RayHit) = h :=
              Option.some.inj hr
            right
            refine ⟨[], shape, rest, by simp, he', hi, rfl, rfl, hlt, by simp, ?_⟩
            intro sh' hm hex' q hq
            exact hmin sh' hm hex' q hq
          · right
            have hdp : h.distance < (p - ray.origin).magnitude := by
              have := hlt'
              rw [short_of] at this
              exact_mod_cast this
            refine ⟨shape :: l₁, sh, l₂, by rw [heq, List.cons_append], hex, hint,
              hsh, hd, lt_trans (by exact_mod_cast hdp) hlt, ?_, hafter⟩
            intro sh' hm hex' q hq
            rcases List.mem_cons.mp hm with rfl | hm'
            · have hqp : q = p := by
                rw [hi] at hq
                exact (Option.some.inj hq).symm
              rw [hqp]
              exact hdp
            · exact hbefore sh' hm' hex' q hq
        · rw [if_neg hlt] at hres
          have hge : short_of result ≤ (((p - ray.origin).magnitude : ℝ) : WithTop ℝ) :=
            not_lt.mp hlt
          rcases ih result h hres with ⟨hr, hmin⟩ |
            ⟨l₁, sh, l₂, heq, hex, hint, hsh, hd, hlt', hbefore, hafter⟩
          · left
            refine ⟨hr, ?_⟩
            intro sh hm hex q hq
            rcases List.mem_cons.mp hm with rfl | hm'
            · have hqp : q = p := by
                rw [hi] at hq
                exact (Option.some.inj hq).symm
              rw [hqp]
              have : ((h.distance : ℝ) : WithTop ℝ) ≤
                  (((p - ray.origin).magnitude : ℝ) : WithTop ℝ) := by
                rw [hr] at hge
                exact hge
              exact_mod_cast this
            · exact hmin sh hm' hex q hq
          · right
            have hdp : h.distance < (p - ray.origin).magnitude := by
              have h2 : ((h.distance : ℝ) : WithTop ℝ) <
                  (((p - ray.origin).magnitude : ℝ) : WithTop ℝ) :=
                lt_of_lt_of_le hlt' hge
              exact_mod_cast h2
            refine ⟨shape :: l₁, sh, l₂, by rw [heq, List.cons_append], hex, hint,
              hsh, hd, hlt', ?_, hafter⟩
            intro sh' hm hex' q hq
            rcases List.mem_cons.mp hm with rfl | hm'
            · have hqp : q = p := by
                rw [hi] at hq
                exact (Option.some.inj hq).symm
              rw [hqp]
              exact hdp
            · exact hbefore sh' hm' hex' q hq

/- ===================== concrete sample inputs ===================== -/

/-- A sample shape: it reports the intersection point (0, 0, 3) for every ray,
has the constant outward normal (0, 0, 1), and a red color. -/
def shape0 : Shape :=
  { id := 0
    intersect := fun _ => some ⟨0, 0, 3⟩
    normal := fun _ _ => ⟨0, 0, 1⟩
    color := Color.new 1 0 0 }

/-- A sample light seated at (0, 0, 1). -/
def light0 : Light := ⟨⟨0, 0, 1⟩⟩

/-- A sample camera at the origin looking along +z. -/
def camera0 : Camera := ⟨⟨0, 0, 0⟩, ⟨0, 0, 1⟩⟩

/-- A sample scene holding one light and one shape. -/
def scene0 : Scene :=
  { camera := camera0
    scene_contents := { lights := [light0], shapes := [shape0] }
    scene_characteristics :=
      { ambient_coefficient := 1 / 2
        diffuse_coefficient := 1 / 2
        specular_coefficient := 2 }
    pixel_buffer := PixelBuffer.new 1 1
    view_window := ViewWindow.new 1 1 1 ⟨0, 0, 1⟩ }

/-- A sample scene with no shape at all. -/
def scene_empty : Scene :=
  { camera := camera0
    scene_contents := { lights := [], shapes := [] }
    scene_characteristics :=
      { ambient_coefficient := 1 / 2
        diffuse_coefficient := 1 / 2
        specular_coefficient := 2 }
    pixel_buffer := PixelBuffer.new 1 1
    view_window := ViewWindow.new 1 1 1 ⟨0, 0, 1⟩ }

/-- A sample primary ray along +z from the origin. -/
def ray0 : Ray := ⟨⟨0, 0, 0⟩, ⟨0, 0, 1⟩⟩

/-- The hit `closest_intersection` records for `ray0` against `shape0`. -/
def hit0 : RayHit :=
  { shape := shape0
    intersection := ⟨0, 0, 3⟩
    distance := ((⟨0, 0, 3⟩ : Vec3) - ray0.origin).magnitude }

/-- A sample configuration whose ambient coefficient is 1. -/
def configuration1 : Configuration :=
  { lights := []
    objects := []
    camera := camera0
    width := 1
    height := 1
    viewport_width := 1
    viewport_distance := 1
    ambient_coefficient := 1
    specular_coefficient := 1 }

/-- Evaluation of `closest_intersection` on the one-shape sample scene. -/
lemma scene0_closest_eval : scene0.closest_intersection ray0 none = some hit0 := by
  show closest_intersection_aux ray0 none [shape0] none ⊤ = some hit0
  rw [closest_intersection_aux, if_neg (by simp [excludes])]
  have hi : shape0.intersect ray0 = some ⟨0, 0, 3⟩ := rfl
  rw [hi]
  show (if (⊤ : WithTop ℝ) > (((((⟨0, 0, 3⟩ : Vec3) - ray0.origin).magnitude : ℝ)) : WithTop ℝ) then
      closest_intersection_aux ray0 none []
        (some ⟨shape0, ⟨0, 0, 3⟩, ((⟨0, 0, 3⟩ : Vec3) - ray0.origin).magnitude⟩)
        (((((⟨0, 0, 3⟩ : Vec3) - ray0.origin).magnitude : ℝ)) : WithTop ℝ)
    else closest_intersection_aux ray0 none [] none ⊤) = some hit0
  rw [if_pos (WithTop.coe_lt_top _), closest_intersection_aux]
  rfl

/- ===================== claim theorems ===================== -/

/-- C7: `Ray::reflection` returns exactly `d − 2·n·(d·n)`, and for a unit
normal `n` it satisfies `dot(reflection(n), n) = −dot(d, n)`; as a pure
function of the ray it leaves the ray's fields untouched. -/
theorem ray_reflection_spec (r : Ray) (n : Vec3) :
    r.reflection n = r.direction - (2 * r.direction.dot n) • n ∧
    (n.magnitude = 1 → (r.reflection n).dot n = -(r.direction.dot n)) := by
  refine ⟨rfl, fun hm => ?_⟩
  have hq : n.dot n = 1 := by
    have h0 := Vec3.dot_self_nonneg n
    have h1 : Real.sqrt (n.dot n) = 1 := hm
    have h2 := Real.sq_sqrt h0
    rw [h1] at h2
    linarith [h2]
  have hq' : n.x * n.x + n.y * n.y + n.z * n.z = 1 := by
    simpa [Vec3.dot] using hq
  simp only [Ray.reflection, Vec3.dot, Vec3.sub_x, Vec3.sub_y, Vec3.sub_z,
    Vec3.smul_x, Vec3.smul_y, Vec3.smul_z]
  linear_combination
    (-2 * (r.direction.x * n.x + r.direction.y * n.y + r.direction.z * n.z)) * hq'

/-- C7 witness: the reflection law evaluated at direction (1, 0, 0) and unit
normal (0, 0, 1). -/
theorem ray_reflection_spec_witness :
    (⟨0, 0, 1⟩ : Vec3).magnitude = 1 ∧
    ((Ray.new ⟨0, 0, 0⟩ ⟨1, 0, 0⟩).reflection ⟨0, 0, 1⟩).dot ⟨0, 0, 1⟩ =
      -((Ray.new ⟨0, 0, 0⟩ ⟨1, 0, 0⟩).direction.dot ⟨0, 0, 1⟩) := by
  have hm : (⟨0, 0, 1⟩ : Vec3).magnitude = 1 := by
    show Real.sqrt ((⟨0, 0, 1⟩ : Vec3).dot ⟨0, 0, 1⟩) = 1
    rw [show ((⟨0, 0, 1⟩ : Vec3).dot ⟨0, 0, 1⟩) = 1 by unfold Vec3.dot; norm_num]
    exact Real.sqrt_one
  exact ⟨hm, (ray_reflection_spec (Ray.new ⟨0, 0, 0⟩ ⟨1, 0, 0⟩) ⟨0, 0, 1⟩).2 hm⟩

/-- C8: `Ray::from_points(A, B)` has origin `A`, direction
`normalize(B − A)`, and for distinct points that direction is a unit vector. -/
theorem ray_from_points_spec (A B : Vec3) :
    (Ray.from_points A B).origin = A ∧
    (Ray.from_points A B).direction = (B - A).normalize ∧
    (A ≠ B → (Ray.from_points A B).direction.magnitude = 1) := by
  refine ⟨rfl, rfl, fun hAB => ?_⟩
  have hsub : B - A ≠ (⟨0, 0, 0⟩ : Vec3) := by
    intro h0
    apply hAB
    have hx : B.x - A.x = 0 := by simpa using congrArg Vec3.x h0
    have hy : B.y - A.y = 0 := by simpa using congrArg Vec3.y h0
    have hz : B.z - A.z = 0 := by simpa using congrArg Vec3.z h0
    exact Vec3.ext (by linarith) (by linarith) (by linarith)
  exact Vec3.magnitude_normalize _ hsub

/-- C8 witness: the unit-direction conclusion at A = (0, 0, 0), B = (0, 0, 2). -/
theorem ray_from_points_spec_witness :
    (⟨0, 0, 0⟩ : Vec3) ≠ (⟨0, 0, 2⟩ : Vec3) ∧
    (Ray.from_points ⟨0, 0, 0⟩ ⟨0, 0, 2⟩).direction.magnitude = 1 := by
  have hne : (⟨0, 0, 0⟩ : Vec3) ≠ (⟨0, 0, 2⟩ : Vec3) := by
    intro h
    have hz := congrArg Vec3.z h
    norm_num at hz
  exact ⟨hne, (ray_from_points_spec ⟨0, 0, 0⟩ ⟨0, 0, 2⟩).2.2 hne⟩

/-- C2: evaluating the shadow-ray construction of `Scene::light` at hit point
p = (0, 0, 0) and light origin L = (2, 0, 0). The code passes `light.origin`
as the `direction` argument of `Ray::new`, which stores it verbatim, so the
shadow ray's direction is the point L = (2, 0, 0) itself — not
normalize(L − p) = (1, 0, 0) as the claim (and `Ray::new`'s own doc comment)
requires — and its origin is p + L·1e−5 = (0.00002, 0, 0), not
p + normalize(L − p)·1e−5 = (0.00001, 0, 0). -/
theorem to_light_ray_code_bug :
    (to_light_ray ⟨0, 0, 0⟩ ⟨⟨2, 0, 0⟩⟩).direction = ⟨2, 0, 0⟩ ∧
    Vec3.normalize ((⟨2, 0, 0⟩ : Vec3) - ⟨0, 0, 0⟩) = ⟨1, 0, 0⟩ ∧
    (to_light_ray ⟨0, 0, 0⟩ ⟨⟨2, 0, 0⟩⟩).direction ≠
      Vec3.normalize ((⟨2, 0, 0⟩ : Vec3) - ⟨0, 0, 0⟩) ∧
    (to_light_ray ⟨0, 0, 0⟩ ⟨⟨2, 0, 0⟩⟩).origin =
      (⟨0, 0, 0⟩ : Vec3) + (⟨2, 0, 0⟩ : Vec3) * (0.00001 : ℝ) ∧
    (to_light_ray ⟨0, 0, 0⟩ ⟨⟨2, 0, 0⟩⟩).origin ≠
      (⟨0, 0, 0⟩ : Vec3) +
        Vec3.normalize ((⟨2, 0, 0⟩ : Vec3) - ⟨0, 0, 0⟩) * (0.00001 : ℝ) := by
  have hsub : ((⟨2, 0, 0⟩ : Vec3) - ⟨0, 0, 0⟩) = (⟨2, 0, 0⟩ : Vec3) := by
    apply Vec3.ext <;> simp
  have hmag : (⟨2, 0, 0⟩ : Vec3).magnitude = 2 := by
    show Real.sqrt ((⟨2, 0, 0⟩ : Vec3).dot ⟨2, 0, 0⟩) = 2
    rw [show ((⟨2, 0, 0⟩ : Vec3).dot ⟨2, 0, 0⟩) = 2 ^ 2 by unfold Vec3.dot; norm_num]
    exact Real.sqrt_sq (by norm_num)
  have hnorm : Vec3.normalize ((⟨2, 0, 0⟩ : Vec3) - ⟨0, 0, 0⟩) = ⟨1, 0, 0⟩ := by
    rw [hsub]
    unfold Vec3.normalize
    rw [hmag]
    apply Vec3.ext <;> simp
  refine ⟨rfl, hnorm, ?_, rfl, ?_⟩
  · rw [hnorm]
    intro h
    have hx := congrArg Vec3.x h
    norm_num [to_light_ray, Ray.new] at hx
  · rw [hnorm]
    intro h
    have hx := congrArg Vec3.x h
    norm_num [to_light_ray, Ray.new] at hx

/-- C4: `Scene::shadow` reports occlusion exactly when `closest_intersection`
on the shadow ray, excluding the hit's own shape, returns any result — no
comparison with the distance to the light is performed. -/
theorem shadow_iff_any_occluder (s : Scene) (ray_hit : RayHit) (to_light : Ray) :
    s.shadow ray_hit to_light = true ↔
    ∃ h', s.closest_intersection to_light (some ray_hit.shape) = some h' := by
  unfold Scene.shadow
  cases hc : s.closest_intersection to_light (some ray_hit.shape) with
  | none => simp [hc]
  | some h' => simp [hc]

/-- C6: for every configuration, `Scene::new` derives
`diffuse_coefficient = 1 − ambient_coefficient` (so diffuse + ambient = 1 and
ambient = 1 forces diffuse = 0), and rendering (`draw`) leaves the scene
characteristics untouched. -/
theorem scene_new_diffuse_invariant (configuration : Configuration) :
    (Scene.new configuration).scene_characteristics.diffuse_coefficient =
      1 - (Scene.new configuration).scene_characteristics.ambient_coefficient ∧
    (Scene.new configuration).scene_characteristics.diffuse_coefficient +
      (Scene.new configuration).scene_characteristics.ambient_coefficient = 1 ∧
    ((Scene.new configuration).scene_characteristics.ambient_coefficient = 1 →
      (Scene.new configuration).scene_characteristics.diffuse_coefficient = 0) ∧
    ((Scene.new configuration).draw).scene_characteristics =
      (Scene.new configuration).scene_characteristics := by
  refine ⟨rfl, ?_, fun h1 => ?_, rfl⟩
  · show (1 - configuration.ambient_coefficient) + configuration.ambient_coefficient = 1
    ring
  · show (1 : ℝ) - configuration.ambient_coefficient = 0
    have h1' : configuration.ambient_coefficient = 1 := h1
    rw [h1']
    norm_num

/-- C6 witness: a configuration with ambient coefficient 1 yields diffuse
coefficient 0. -/
theorem scene_new_diffuse_invariant_witness :
    (Scene.new configuration1).scene_characteristics.ambient_coefficient = 1 ∧
    (Scene.new configuration1).scene_characteristics.diffuse_coefficient = 0 :=
  ⟨rfl, (scene_new_diffuse_invariant configuration1).2.2.1 rfl⟩

/-- C1: `closest_intersection` returns `none` exactly when no non-excluded
shape of the scene's shape list reports an intersection; when it returns a
hit, that hit's distance is minimal among every reported intersection of a
non-excluded shape, the hit's shape occurs in the shape list, and every
non-excluded shape occurring strictly earlier in the list reports only
strictly farther intersections (the strict-less-than comparison makes the
earliest shape win ties). -/
theorem closest_intersection_spec (s : Scene) (ray : Ray)
    (this_object : Option Shape) :
    (s.closest_intersection ray this_object = none ↔
      ∀ sh ∈ s.scene_contents.shapes, excludes this_object sh = false →
        sh.intersect ray = none) ∧
    (∀ h, s.closest_intersection ray this_object = some h →
      (∀ sh ∈ s.scene_contents.shapes, excludes this_object sh = false →
        ∀ p, sh.intersect ray = some p →
          h.distance ≤ (p - ray.origin).magnitude) ∧
      ∃ l₁ l₂, s.scene_contents.shapes = l₁ ++ h.shape :: l₂ ∧
        ∀ sh' ∈ l₁, excludes this_object sh' = false →
          ∀ p, sh'.intersect ray = some p →
            h.distance < (p - ray.origin).magnitude) := by
  constructor
  · exact closest_intersection_aux_none_iff ray this_object
      s.scene_contents.shapes
  · intro h hres
    have hres' : closest_intersection_aux ray this_object
        s.scene_contents.shapes none (short_of none) = some h := hres
    rcases closest_intersection_aux_some_spec ray this_object
        s.scene_contents.shapes none h hres' with ⟨hr, _⟩ |
      ⟨l₁, sh, l₂, heq, hex, hint, hsh, hd, _, hbefore, hafter⟩
    · cases hr
    · constructor
      · intro sh' hm hex' p hp
        rw [heq] at hm
        rcases List.mem_append.mp hm with hm1 | hm2
        · exact le_of_lt (hbefore sh' hm1 hex' p hp)
        · rcases List.mem_cons.mp hm2 with rfl | hm3
          · have hpe : p = h.intersection := by
              rw [hint] at hp
              exact (Option.some.inj hp).symm
            rw [hpe, ← hd]
          · exact hafter sh' hm3 hex' p hp
      · refine ⟨l₁, l₂, ?_, ?_⟩
        · rw [heq, hsh]
        · intro sh' hm hex' p hp
          exact hbefore sh' hm hex' p hp

/-- C1 witness: the hit characterization evaluated on the one-shape sample
scene, where the scene reports the hit `hit0`. -/
theorem closest_intersection_spec_witness :
    scene0.closest_intersection ray0 none = some hit0 ∧
    ((∀ sh ∈ scene0.scene_contents.shapes, excludes none sh = false →
        ∀ p, sh.intersect ray0 = some p →
          hit0.distance ≤ (p - ray0.origin).magnitude) ∧
      ∃ l₁ l₂, scene0.scene_contents.shapes = l₁ ++ hit0.shape :: l₂ ∧
        ∀ sh' ∈ l₁, excludes none sh' = false →
          ∀ p, sh'.intersect ray0 = some p →
            hit0.distance < (p - ray0.origin).magnitude) :=
  ⟨scene0_closest_eval,
    (closest_intersection_spec scene0 ray0 none).2 hit0 scene0_closest_eval⟩

/-- C10: every hit returned by `closest_intersection` is well formed: its
shape is a member of the scene's shape list and is not the excluded shape,
its intersection point is exactly what that shape's `intersect` reported for
the ray, and its distance is the magnitude of (intersection − ray.origin). -/
theorem closest_intersection_hit_well_formed (s : Scene) (ray : Ray)
    (this_object : Option Shape) (h : RayHit)
    (hres : s.closest_intersection ray this_object = some h) :
    h.shape ∈ s.scene_contents.shapes ∧
    excludes this_object h.shape = false ∧
    h.shape.intersect ray = some h.intersection ∧
    h.distance = (h.intersection - ray.origin).magnitude := by
  have hres' : closest_intersection_aux ray this_object
      s.scene_contents.shapes none (short_of none) = some h := hres
  rcases closest_intersection_aux_some_spec ray this_object
      s.scene_contents.shapes none h hres' with ⟨hr, _⟩ |
    ⟨l₁, sh, l₂, heq, hex, hint, hsh, hd, _, _, _⟩
  · cases hr
  · refine ⟨?_, ?_, ?_, hd⟩
    · rw [heq, hsh]
      exact List.mem_append_right _ (List.mem_cons_self _ _)
    · rw [hsh]
      exact hex
    · rw [hsh]
      exact hint

/- ============ per-light loop lemmas (C3) ============ -/

lemma light_step_shadow_true (s : Scene) (ray : Ray) (ray_hit : RayHit)
    (light : Light)
    (hsh : s.shadow ray_hit (to_light_ray ray_hit.intersection light) = true)
    (result : Color) :
    light_step s ray ray_hit result light = result := by
  simp [light_step, hsh]

lemma light_step_contributes (s : Scene) (ray : Ray) (ray_hit : RayHit)
    (light : Light) (hc : light_contributes s ray_hit light) (result : Color) :
    light_step s ray ray_hit result light =
      light_contribution s ray ray_hit light := by
  obtain ⟨hsh, hpos⟩ := hc
  simp only [light_step, light_contribution]
  rw [if_neg (by simp [hsh]), if_pos hpos]

lemma light_step_no_contrib (s : Scene) (ray : Ray) (ray_hit : RayHit)
    (light : Light) (hnc : ¬ light_contributes s ray_hit light)
    (result : Color) :
    light_step s ray ray_hit result light = result := by
  cases hsh : s.shadow ray_hit (to_light_ray ray_hit.intersection light) with
  | true => exact light_step_shadow_true s ray ray_hit light hsh result
  | false =>
    have hnpos : ¬(0 < (to_light_ray ray_hit.intersection light).direction.dot
        (ray_hit.shape.normal ray_hit.intersection s.camera.orientation_vector)) :=
      fun hp => hnc ⟨hsh, hp⟩
    simp only [light_step]
    rw [if_neg (by simp [hsh]), if_neg hnpos]

lemma foldl_light_step_no_contrib (s : Scene) (ray : Ray) (ray_hit : RayHit) :
    ∀ (l : List Light), (∀ x ∈ l, ¬ light_contributes s ray_hit x) →
      ∀ c, l.foldl (light_step s ray ray_hit) c = c := by
  intro l
  induction l with
  | nil => intro _ c; rfl
  | cons light rest ih =>
    intro hl c
    rw [List.foldl_cons,
      light_step_no_contrib s ray ray_hit light (hl light (List.mem_cons_self _ _)) c]
    exact ih (fun x hx => hl x (List.mem_cons_of_mem _ hx)) c

lemma foldl_light_step_filter (s : Scene) (ray : Ray) (ray_hit : RayHit) :
    ∀ (l : List Light) (c : Color),
      l.foldl (light_step s ray ray_hit) c =
      (l.filter fun light =>
        !(s.shadow ray_hit (to_light_ray ray_hit.intersection light))).foldl
        (light_step s ray ray_hit) c := by
  intro l
  induction l with
  | nil => intro c; rfl
  | cons light rest ih =>
    intro c
    rw [List.foldl_cons, List.filter_cons]
    cases hsh : s.shadow ray_hit (to_light_ray ray_hit.intersection light) with
    | true =>
      simp only [hsh, Bool.not_true]
      rw [if_neg (by simp)]
      rw [light_step_shadow_true s ray ray_hit light hsh]
      exact ih c
    | false =>
      simp only [hsh, Bool.not_false]
      rw [if_pos trivial, List.foldl_cons]
      exact ih _

/-- C3: in `Scene::light` the per-light result is overwritten, not
accumulated — if the last contributing light (shadow test false and
`shade > 0`) in the scene's light list is `light`, the returned color is the
specular + diffuse + ambient terms computed for `light` alone; and lights
whose shadow test reports occlusion are no-ops: the fold equals the fold over
the list with all shadowed lights filtered out. -/
theorem light_overwrites_per_light (s : Scene) (ray : Ray) (ray_hit : RayHit)
    (l₁ l₂ : List Light) (light : Light)
    (hsplit : s.scene_contents.lights = l₁ ++ light :: l₂)
    (hc : light_contributes s ray_hit light)
    (hrest : ∀ light' ∈ l₂, ¬ light_contributes s ray_hit light') :
    s.light ray ray_hit = light_contribution s ray ray_hit light ∧
    ∀ (l : List Light) (c : Color),
      l.foldl (light_step s ray ray_hit) c =
      (l.filter fun light' =>
        !(s.shadow ray_hit (to_light_ray ray_hit.intersection light'))).foldl
        (light_step s ray ray_hit) c := by
  refine ⟨?_, fun l c => foldl_light_step_filter s ray ray_hit l c⟩
  show s.scene_contents.lights.foldl (light_step s ray ray_hit)
    (ray_hit.shape.color * s.scene_characteristics.ambient_coefficient) =
    light_contribution s ray ray_hit light
  rw [hsplit, List.foldl_append, List.foldl_cons,
    light_step_contributes s ray ray_hit light hc]
  exact foldl_light_step_no_contrib s ray ray_hit l₂ hrest _

/-- C3 witness: on the sample scene the single light passes the shadow test
with positive shade, and the returned color is exactly its contribution. -/
theorem light_overwrites_per_light_witness :
    light_contributes scene0 hit0 light0 ∧
    scene0.light ray0 hit0 = light_contribution scene0 ray0 hit0 light0 := by
  have hci : scene0.closest_intersection
      (to_light_ray hit0.intersection light0) (some hit0.shape) = none := by
    show closest_intersection_aux (to_light_ray hit0.intersection light0)
      (some shape0) [shape0] none ⊤ = none
    rw [closest_intersection_aux,
      if_pos (show excludes (some shape0) shape0 = true from rfl),
      closest_intersection_aux]
  have hshadow : scene0.shadow hit0
      (to_light_ray hit0.intersection light0) = false := by
    unfold Scene.shadow
    rw [hci]
  have hshade : 0 < (to_light_ray hit0.intersection light0).direction.dot
      (hit0.shape.normal hit0.intersection scene0.camera.orientation_vector) := by
    show (0 : ℝ) < 0 * 0 + 0 * 0 + 1 * 1
    norm_num
  have hc : light_contributes scene0 hit0 light0 := ⟨hshadow, hshade⟩
  exact ⟨hc, (light_overwrites_per_light scene0 ray0 hit0 [] [] light0 rfl hc
    (fun x hx => absurd hx (List.not_mem_nil x))).1⟩

/-- C10 witness: well-formedness of the hit reported by the one-shape sample
scene. -/
theorem closest_intersection_hit_well_formed_witness :
    scene0.closest_intersection ray0 none = some hit0 ∧
    (hit0.shape ∈ scene0.scene_contents.shapes ∧
      excludes none hit0.shape = false ∧
      hit0.shape.intersect ray0 = some hit0.intersection ∧
      hit0.distance = (hit0.intersection - ray0.origin).magnitude) :=
  ⟨scene0_closest_eval,
    closest_intersection_hit_well_formed scene0 ray0 none hit0 scene0_closest_eval⟩

/- ============ pixel-loop lemmas (C5, C9) ============ -/

/-- The color traced for pixel (x, y): the primary ray is built exactly as in
`Scene::draw`. -/
def traced_color (s : Scene) (x y : ℕ) : Option Color :=
  s.trace (Ray.new s.camera.origin (s.view_window.at_point x y))

lemma draw_cell_data (s : Scene) (x y : ℕ) (pb : PixelBuffer) (i j : ℕ) :
    (draw_cell s x y pb).data i j =
    if i = x ∧ j = y then (traced_color s x y).getD (pb.data i j)
    else pb.data i j := by
  unfold draw_cell
  cases ht : s.trace (Ray.new s.camera.origin (s.view_window.at_point x y)) with
  | none =>
    have ht' : traced_color s x y = none := ht
    simp [ht', ite_self]
  | some c =>
    have ht' : traced_color s x y = some c := ht
    simp [ht', PixelBuffer.set_pixel]

lemma inner_loop_data (s : Scene) (x : ℕ) :
    ∀ (ys : List ℕ) (pb : PixelBuffer) (i j : ℕ),
      ((ys.foldl (fun acc' y => draw_cell s x y acc') pb).data i j) =
      if i = x ∧ j ∈ ys then (traced_color s i j).getD (pb.data i j)
      else pb.data i j := by
  intro ys
  induction ys with
  | nil =>
    intro pb i j
    simp
  | cons y rest ih =>
    intro pb i j
    rw [List.foldl_cons, ih]
    by_cases hij : i = x ∧ j ∈ rest
    · rw [if_pos hij, if_pos ⟨hij.1, List.mem_cons_of_mem _ hij.2⟩]
      cases ht : traced_color s i j with
      | some c => simp [ht]
      | none =>
        simp only [ht, Option.getD_none]
        rw [draw_cell_data]
        by_cases hxy : i = x ∧ j = y
        · rw [if_pos hxy, ← hxy.1, ← hxy.2, ht, Option.getD_none]
        · rw [if_neg hxy]
    · rw [if_neg hij, draw_cell_data]
      by_cases hxy : i = x ∧ j = y
      · rw [if_pos hxy,
          if_pos ⟨hxy.1, by rw [hxy.2]; exact List.mem_cons_self _ _⟩,
          ← hxy.1, ← hxy.2]
      · rw [if_neg hxy]
        have hnin : ¬(i = x ∧ j ∈ y :: rest) := by
          rintro ⟨hx, hmem⟩
          rcases List.mem_cons.mp hmem with hj | hj
          · exact hxy ⟨hx, hj⟩
          · exact hij ⟨hx, hj⟩
        rw [if_neg hnin]

lemma outer_loop_data (s : Scene) :
    ∀ (xs : List ℕ) (pb : PixelBuffer) (i j : ℕ),
      ((xs.foldl (fun acc x =>
          (List.range s.view_window.pixel_height).foldl
            (fun acc' y => draw_cell s x y acc') acc) pb).data i j) =
      if i ∈ xs ∧ j < s.view_window.pixel_height then
        (traced_color s i j).getD (pb.data i j)
      else pb.data i j := by
  intro xs
  induction xs with
  | nil =>
    intro pb i j
    simp
  | cons x rest ih =>
    intro pb i j
    rw [List.foldl_cons, ih]
    have hpb' : ∀ i' j',
        ((List.range s.view_window.pixel_height).foldl
          (fun acc' y => draw_cell s x y acc') pb).data i' j' =
        if i' = x ∧ j' < s.view_window.pixel_height then
          (traced_color s i' j').getD (pb.data i' j')
        else pb.data i' j' := by
      intro i' j'
      rw [inner_loop_data]
      simp [List.mem_range]
    by_cases hmem : i ∈ rest ∧ j < s.view_window.pixel_height
    · rw [if_pos hmem, if_pos ⟨List.mem_cons_of_mem _ hmem.1, hmem.2⟩]
      cases ht : traced_color s i j with
      | some c => simp [ht]
      | none =>
        simp only [ht, Option.getD_none]
        rw [hpb']
        by_cases hx : i = x ∧ j < s.view_window.pixel_height
        · rw [if_pos hx, ht, Option.getD_none]
        · rw [if_neg hx]
    · rw [if_neg hmem, hpb']
      by_cases hx : i = x ∧ j < s.view_window.pixel_height
      · rw [if_pos hx,
          if_pos ⟨by rw [hx.1]; exact List.mem_cons_self _ _, hx.2⟩]
      · have hnin : ¬(i ∈ x :: rest ∧ j < s.view_window.pixel_height) := by
          rintro ⟨hmem', hj⟩
          rcases List.mem_cons.mp hmem' with hx' | hx'
          · exact hx ⟨hx', hj⟩
          · exact hmem ⟨hx', hj⟩
        rw [if_neg hx, if_neg hnin]

lemma draw_loop_data (s : Scene) (pb : PixelBuffer) (i j : ℕ) :
    (draw_loop s pb).data i j =
    if i < s.view_window.pixel_width ∧ j < s.view_window.pixel_height then
      (traced_color s i j).getD (pb.data i j)
    else pb.data i j := by
  unfold draw_loop
  rw [outer_loop_data]
  simp [List.mem_range]

/-- C5: a pixel whose primary ray strikes nothing (`trace` returns `none`)
keeps its previous pixel-buffer contents across `Scene::draw`; `set_pixel` is
only reached for pixels whose primary ray produced a hit. -/
theorem draw_leaves_missed_pixels (s : Scene) (x y : ℕ)
    (h : s.trace (Ray.new s.camera.origin (s.view_window.at_point x y)) = none) :
    (s.draw).pixel_buffer.data x y = s.pixel_buffer.data x y := by
  show (draw_loop s s.pixel_buffer).data x y = s.pixel_buffer.data x y
  rw [draw_loop_data]
  have ht : traced_color s x y = none := h
  rw [ht]
  simp [ite_self]

/-- C5 witness: on the empty-shape sample scene the primary ray misses, and
the buffer cell (0, 0) is untouched by `draw`. -/
theorem draw_leaves_missed_pixels_witness :
    scene_empty.trace (Ray.new scene_empty.camera.origin
      (scene_empty.view_window.at_point 0 0)) = none ∧
    (scene_empty.draw).pixel_buffer.data 0 0 =
      scene_empty.pixel_buffer.data 0 0 := by
  have h : scene_empty.trace (Ray.new scene_empty.camera.origin
      (scene_empty.view_window.at_point 0 0)) = none := rfl
  exact ⟨h, draw_leaves_missed_pixels scene_empty 0 0 h⟩

/-- C9: `Scene::draw` is idempotent — drawing an unchanged scene a second
time writes the same color to every pixel it writes, so the pixel buffer
after two draws equals the buffer after one. -/
theorem draw_idempotent (s : Scene) :
    (s.draw.draw).pixel_buffer = s.draw.pixel_buffer := by
  have hdl : ∀ pb, draw_loop s.draw pb = draw_loop s pb := fun pb => rfl
  show draw_loop s.draw (draw_loop s s.pixel_buffer) =
    draw_loop s s.pixel_buffer
  rw [hdl]
  apply PixelBuffer.ext
  funext i j
  rw [draw_loop_data, draw_loop_data]
  by_cases hin : i < s.view_window.pixel_width ∧ j < s.view_window.pixel_height
  · rw [if_pos hin, if_pos hin]
    cases ht : traced_color s i j with
    | some c => simp [ht]
    | none => simp [ht]
  · rw [if_neg hin, if_neg hin]

end

